import Mathlib

/-!
Verification of the Forex-REST-API ingestion pipeline against its design
specification.  The Python sources are shallowly embedded: strings are
`List Char`, pandas DataFrames become a `Frame` of headers plus rows of
`Cell`s, the SQLite tables become an explicit `Ledger` list, and library
parsers (`pd.to_datetime`, `float`) are parameters of the pipeline,
instantiated with concrete decimal-digit parsers for witnesses.
-/

namespace Forex

/-- Python strings are modelled as lists of characters. -/
abbrev Str := List Char

/-- ASCII case mapping used by `str.lower()`; the source only ever relies on
its behaviour on ASCII header labels. -/
def pyLowerChar (c : Char) : Char :=
  if 'A' ≤ c ∧ c ≤ 'Z' then Char.ofNat (c.toNat + 32) else c

/-- Characters removed by `str.strip()` (ASCII whitespace). -/
def isPySpace (c : Char) : Bool :=
  c = ' ' ∨ c = '\t' ∨ c = '\n' ∨ c = '\r' ∨ c = '\x0b' ∨ c = '\x0c'

/-- `str.strip()`: drop leading and trailing whitespace. -/
def pyStrip (s : Str) : Str :=
  ((s.dropWhile isPySpace).reverse.dropWhile isPySpace).reverse

/-- ASCII decimal digit test. -/
def isAsciiDigit (c : Char) : Bool :=
  '0' ≤ c ∧ c ≤ '9'

/-- Numeric value of a digit string. -/
def digitsVal (s : Str) : Nat :=
  s.foldl (fun a c => 10 * a + (c.toNat - 48)) 0

/-- Python `int(str)`: strips whitespace, then an optional sign followed by
decimal digits (digit-group underscores are not modelled). -/
def pyIntParse (s : Str) : Option Int :=
  match pyStrip s with
  | [] => none
  | '+' :: ds => if ds ≠ [] ∧ ds.all isAsciiDigit then some (digitsVal ds) else none
  | '-' :: ds => if ds ≠ [] ∧ ds.all isAsciiDigit then some (-(digitsVal ds : Int)) else none
  | ds => if ds.all isAsciiDigit then some (digitsVal ds) else none

/-- `str.replace(c, '')`: remove every occurrence of one character. -/
def removeAll (c : Char) (s : Str) : Str :=
  s.filter (fun d => d ≠ c)

/-- Fuelled worker for `re.sub(lit + ".*", repl, s)` where `lit` is a literal
pattern: scan left to right, and at each occurrence of `lit` replace the
match — `lit` together with the following characters up to (not including)
the next newline, since `.` does not match a newline — by `repl`, then
continue scanning after the match. -/
def subLitAux (lit repl : Str) : Nat → Str → Str
  | _, [] => []
  | 0, s => s
  | fuel + 1, c :: rest =>
    if lit.isPrefixOf (c :: rest) ∧ lit ≠ [] then
      repl ++ subLitAux lit repl fuel (((c :: rest).drop lit.length).dropWhile (fun d => d ≠ '\n'))
    else
      c :: subLitAux lit repl fuel rest

/-- `re.sub(lit + ".*", repl, s)` for a literal `lit` (the only regex shape
used by `clean_column_name`). -/
def subLitDotStar (lit repl s : Str) : Str :=
  subLitAux lit repl s.length s

/-- `clean_column_name` from `forex_api.py`: lower-case, strip, then the three
`re.sub` rewrites (first `close.*`, then `adj close.*`, then `volume.*`). -/
def clean_column_name (s : Str) : Str :=
  subLitDotStar "volume".data "volume".data
    (subLitDotStar "adj close".data "adj_close".data
      (subLitDotStar "close".data "close".data
        (pyStrip (s.map pyLowerChar))))

/-- A DataFrame cell: a raw extracted string, a parsed number, a parsed
calendar date, or the missing marker (NaN / NaT). -/
inductive Cell where
  | str (s : Str)
  | num (v : Int)
  | date (d : Nat)
  | nan
deriving DecidableEq

/-- A pandas DataFrame: column labels plus rows of cells (cell `i` of a row
belongs to column `i`). -/
structure Frame where
  headers : List Str
  rows : List (List Cell)
deriving DecidableEq

/-- `pd.DataFrame()` — the empty frame returned on a caught exception. -/
def emptyFrame : Frame := ⟨[], []⟩

/-- Replace cell `i` of a row by `g` of it, leaving other cells alone. -/
def mapCol (g : Cell → Cell) : Nat → List Cell → List Cell
  | _, [] => []
  | 0, c :: r => g c :: r
  | i + 1, c :: r => c :: mapCol g i r

/-- Position of the first column with the given label (pandas label lookup). -/
def idxOf (name : Str) : List Str → Nat
  | [] => 0
  | a :: t => if a = name then 0 else idxOf name t + 1

/-- `required_columns` from `forex_api.py`. -/
def required_columns : List Str :=
  ["date".data, "open".data, "high".data, "low".data, "close".data,
   "adj_close".data, "volume".data]

/-- `pd.DataFrame(rows, columns=headers)`: a row longer than the header list
raises (the caller catches this and yields the empty frame); shorter rows are
padded with NaN. -/
def buildFrame (headers : List Str) (rows : List (List Str)) : Option Frame :=
  if rows.all (fun r => r.length ≤ headers.length) then
    some ⟨headers,
      rows.map (fun r => r.map Cell.str ++ List.replicate (headers.length - r.length) Cell.nan)⟩
  else none

/-- Does a row contain a NaN cell? -/
def rowHasNan (r : List Cell) : Bool :=
  r.any (fun c => c = Cell.nan)

/-- `df.dropna(inplace=True)`: drop every row containing a NaN. -/
def dropnaAll (f : Frame) : Frame :=
  ⟨f.headers, f.rows.filter (fun r => !rowHasNan r)⟩

/-- `df.rename(columns=lambda x: clean_column_name(x), inplace=True)`. -/
def renameCols (f : Frame) : Frame :=
  ⟨f.headers.map clean_column_name, f.rows⟩

/-- Which column positions are kept by the `required_columns` selection. -/
def keepMask (headers : List Str) : List Bool :=
  headers.map (fun h => decide (h ∈ required_columns))

/-- Keep the cells of a row at the positions marked `true`. -/
def applyMask (m : List Bool) (r : List Cell) : List Cell :=
  (m.zip r).filterMap (fun p => if p.1 then some p.2 else none)

/-- `df = df[[col for col in df.columns if col in required_columns]]`. -/
def selectRequired (f : Frame) : Frame :=
  ⟨f.headers.filter (fun h => h ∈ required_columns),
   f.rows.map (applyMask (keepMask f.headers))⟩

/-- One cell of `pd.to_datetime(col, errors="coerce")`: an unparsable date
becomes NaT (modelled as NaN).  The date parser of `pd.to_datetime` is a
parameter of the embedding. -/
def coerceDateCell (dateOk : Str → Bool) (dateVal : Str → Nat) (c : Cell) : Cell :=
  match c with
  | Cell.str s => if dateOk s then Cell.date (dateVal s) else Cell.nan
  | c => c

/-- The date stage: if a `date` column exists, coerce it and then
`dropna(subset=["date"])`. -/
def dateStep (dateOk : Str → Bool) (dateVal : Str → Nat) (f : Frame) : Frame :=
  if "date".data ∈ f.headers then
    ⟨f.headers,
      (f.rows.map (mapCol (coerceDateCell dateOk dateVal) (idxOf "date".data f.headers))).filter
        (fun r => r.getD (idxOf "date".data f.headers) Cell.nan ≠ Cell.nan)⟩
  else f

/-- `col.replace("-", 0)`: a cell equal to the literal string `"-"` becomes
the number `0`. -/
def volumeReplace (c : Cell) : Cell :=
  if c = Cell.str "-".data then Cell.num 0 else c

/-- Can `astype(float)` convert this cell?  The `float` parser of Python is a
parameter of the embedding. -/
def cellFloatOk (fp : Str → Option Int) (c : Cell) : Bool :=
  match c with
  | Cell.str s => (fp s).isSome
  | Cell.num _ => true
  | Cell.date _ => false
  | Cell.nan => true

/-- Convert one cell to a number (used only when the whole column converts). -/
def convertCell (fp : Str → Option Int) (c : Cell) : Cell :=
  match c with
  | Cell.str s => match fp s with
    | some v => Cell.num v
    | none => Cell.str s
  | c => c

/-- The volume stage: if a `volume` column exists, apply
`col.replace("-", 0).astype(float, errors="ignore")` — the conversion is
all-or-nothing: if any cell of the column fails to convert, the whole column
is left as it was after the replace. -/
def volumeStep (fp : Str → Option Int) (f : Frame) : Frame :=
  if "volume".data ∈ f.headers then
    if (f.rows.map (mapCol volumeReplace (idxOf "volume".data f.headers))).all
        (fun r => cellFloatOk fp (r.getD (idxOf "volume".data f.headers) Cell.nan)) then
      ⟨f.headers,
        (f.rows.map (mapCol volumeReplace (idxOf "volume".data f.headers))).map
          (mapCol (convertCell fp) (idxOf "volume".data f.headers))⟩
    else
      ⟨f.headers, f.rows.map (mapCol volumeReplace (idxOf "volume".data f.headers))⟩
  else f

/-- A cell that makes the whole-column `astype(float)` conversion raise: a
string other than `"-"` that Python `float` rejects. -/
def blocksConv (fp : Str → Option Int) (c : Cell) : Bool :=
  match c with
  | Cell.str s => s ≠ "-".data ∧ (fp s).isNone
  | _ => false

/-- The Record Normalizer of `fetch_historical_exchange_data` (forex_api.py
lines 73-99): DataFrame construction, `dropna`, header canonicalization,
column selection, date coercion and the volume fix-up.  `none` models the
construction raising (caught by the caller). -/
def normalizeTable (dateOk : Str → Bool) (dateVal : Str → Nat)
    (fp : Str → Option Int) (headers : List Str) (rows : List (List Str)) : Option Frame :=
  (buildFrame headers rows).map (fun f =>
    volumeStep fp (dateStep dateOk dateVal (selectRequired (renameCols (dropnaAll f)))))

/-- Outcome of the HTTP fetch and table lookup: a page with a data table, a
`requests` failure (connection error, timeout or non-2xx status raised by
`raise_for_status`), or a page with no table (`ValueError`). -/
inductive FetchOutcome where
  | pageOk (headers : List Str) (rows : List (List Str))
  | requestError
  | noTable

/-- `fetch_historical_exchange_data` from `forex_api.py`: both `except`
branches log and return an empty DataFrame. -/
def fetch_historical_exchange_data (dateOk : Str → Bool) (dateVal : Str → Nat)
    (fp : Str → Option Int) (o : FetchOutcome) : Frame :=
  match o with
  | FetchOutcome.pageOk headers rows =>
      (normalizeTable dateOk dateVal fp headers rows).getD emptyFrame
  | FetchOutcome.requestError => emptyFrame
  | FetchOutcome.noTable => emptyFrame

/-- Concrete instance of the `pd.to_datetime` parameter: nonempty decimal
digit strings parse (as `pd.to_datetime` does for e.g. `"20240101"`),
everything else fails. -/
def dateOkDigits (s : Str) : Bool :=
  s ≠ [] ∧ s.all isAsciiDigit

/-- Concrete date value for digit strings. -/
def dateValDigits (s : Str) : Nat :=
  digitsVal s

/-- Concrete instance of the `float` parameter: nonempty decimal digit
strings convert (as Python `float` does), everything else — e.g. `"abc"` —
raises. -/
def floatParseDigits (s : Str) : Option Int :=
  if s ≠ [] ∧ s.all isAsciiDigit then some (digitsVal s) else none

/-- One row of the `forex_data` SQLite table: the storage key column together
with the record's remaining cells. -/
structure StoredRow where
  key : Str
  cells : List Cell
deriving DecidableEq

/-- The SQLite store, as the ordered list of all inserted rows. -/
abbrev Ledger := List StoredRow

/-- `dataframe['key'] = key`: set an existing `key` column to the scalar, or
append a new `key` column holding the scalar in every row.  This mutates the
caller's DataFrame. -/
def setColumn (f : Frame) (name : Str) (c : Cell) : Frame :=
  if name ∈ f.headers then
    ⟨f.headers, f.rows.map (mapCol (fun _ => c) (idxOf name f.headers))⟩
  else
    ⟨f.headers ++ [name], f.rows.map (fun r => r ++ [c])⟩

/-- `store_data_in_sqlite` from `forex_api.py`: first mutate the DataFrame by
adding the `key` column, then `to_sql(..., if_exists='append')`.  `storeFails`
injects a failure of `to_sql`; pandas runs the insert in a transaction, so a
failure appends nothing.  The `except` branch only logs, so the function
returns `None` (unit) on both paths; the first component is the caller's
DataFrame object after the call. -/
def store_data_in_sqlite (df : Frame) (key : Str) (L : Ledger)
    (storeFails : Bool) : Frame × Ledger × Unit :=
  if storeFails then (setColumn df "key".data (Cell.str key), L, ())
  else
    (setColumn df "key".data (Cell.str key),
     L ++ (setColumn df "key".data (Cell.str key)).rows.map (fun r => StoredRow.mk key r),
     ())

/-- The collection stored under one key: the rows of the table whose `key`
column equals `k`. -/
def collectionFor (k : Str) (L : Ledger) : Ledger :=
  L.filter (fun row => row.key = k)

/-- Number of copies of a stored row present in the table. -/
def countRow (x : StoredRow) (L : Ledger) : Nat :=
  (L.filter (fun y => y = x)).length

/-- `store_data_in_memory_db` from `trigger_scrape.py`: append the DataFrame's
rows to the table named `tableName` (tables are modelled by tagging each row
with its table's name).  Failures are logged and swallowed. -/
def store_data_in_memory_db (df : Frame) (tableName : Str) (L : Ledger)
    (storeFails : Bool) : Ledger × Unit :=
  if storeFails then (L, ())
  else (L ++ df.rows.map (fun r => StoredRow.mk tableName r), ())

/-- `parse_period_to_timestamps` from `forex_api.py`: any string ending in
`'M'` whose remainder `int()` accepts yields `now - 30*n` days, any ending in
`'Y'` yields `now - 365*n` days; everything else raises (`none`).  `now` is
the invocation instant in whole Unix seconds. -/
def parse_period_to_timestamps (now : Int) (period : Str) : Option (Int × Int) :=
  match period.getLast? with
  | some 'M' => (pyIntParse period.dropLast).map (fun n => (now - 86400 * 30 * n, now))
  | some 'Y' => (pyIntParse period.dropLast).map (fun n => (now - 86400 * 365 * n, now))
  | _ => none

/-- `get_period_timestamps` from `trigger_scrape.py`: exactly five literal
periods are accepted. -/
def get_period_timestamps (now : Int) (period : Str) : Option (Int × Int) :=
  if period = "1W".data then some (now - 86400 * 7, now)
  else if period = "1M".data then some (now - 86400 * 30, now)
  else if period = "3M".data then some (now - 86400 * 90, now)
  else if period = "6M".data then some (now - 86400 * 180, now)
  else if period = "1Y".data then some (now - 86400 * 365, now)
  else none

/-- Table-name derivation of `scrape_and_store` (trigger_scrape.py line 137):
`f"exchange_rates_{pair}_{period}".replace('=', '').replace('X', '')`. -/
def scrapeTableName (pair period : Str) : Str :=
  removeAll 'X' (removeAll '='
    ("exchange_rates_".data ++ pair ++ "_".data ++ period))

/-- `currency_pairs` from `schedule_scraping`. -/
def currency_pairs : List Str :=
  ["GBPINR=X".data, "AEDINR=X".data]

/-- `periods` from `schedule_scraping`. -/
def periods : List Str :=
  ["1W".data, "1M".data, "3M".data, "6M".data, "1Y".data]

/-- `max_workers=5` of the `ThreadPoolExecutor`. -/
def MAX_WORKERS : Nat := 5

/-- One job submitted to the executor: a (pair, period) combination. -/
abbrev JobSpec := Str × Str

/-- The executor's observable state: submitted-but-unfinished jobs and
finished jobs. -/
structure ExecState where
  pending : List JobSpec
  completed : List JobSpec
deriving DecidableEq

/-- `executor.submit(scrape_and_store, pair, period)`. -/
def submitJob (j : JobSpec) (st : ExecState) : ExecState :=
  ⟨st.pending ++ [j], st.completed⟩

/-- Exiting the `with ThreadPoolExecutor(...)` block calls
`shutdown(wait=True)`: every submitted job runs to completion before the
block is left. -/
def shutdownWait (st : ExecState) : ExecState :=
  ⟨[], st.completed ++ st.pending⟩

/-- The jobs built by the nested loops of `schedule_scraping`: the
cross-product of `currency_pairs` and `periods`, pairs outermost. -/
def dispatchJobs : List JobSpec :=
  (currency_pairs.map (fun p => periods.map (fun q => (p, q)))).flatten

/-- `schedule_scraping` from `trigger_scrape.py`: submit one job per
(pair, period) inside a `with ThreadPoolExecutor(max_workers=5)` block; the
state returned is the executor state at the moment the function returns. -/
def schedule_scraping : ExecState :=
  shutdownWait (dispatchJobs.foldl (fun st j => submitJob j st) ⟨[], []⟩)

/-- Both branches of `store_data_in_sqlite` hand back the mutated DataFrame. -/
theorem store_data_fst (df : Frame) (k : Str) (L : Ledger) (b : Bool) :
    (store_data_in_sqlite df k L b).1 = setColumn df "key".data (Cell.str k) := by
  cases b <;> rfl

/-- Setting a column that is not present appends it. -/
theorem setColumn_fresh {f : Frame} {name : Str} {c : Cell} (h : name ∉ f.headers) :
    setColumn f name c = ⟨f.headers ++ [name], f.rows.map (fun r => r ++ [c])⟩ := by
  unfold setColumn
  rw [if_neg h]

/-- Position of a freshly appended column. -/
theorem idxOf_append_self {hs : List Str} {n : Str} (h : n ∉ hs) :
    idxOf n (hs ++ [n]) = hs.length := by
  induction hs with
  | nil => simp [idxOf]
  | cons a t ih =>
    have ha : a ≠ n := by
      rintro rfl
      exact h (List.mem_cons_self ..)
    simp only [List.cons_append, idxOf, if_neg ha, List.length_cons, List.append_eq]
    rw [ih (fun hm => h (List.mem_cons_of_mem _ hm))]

/-- `mapCol` at the position just past a row rewrites the appended cell. -/
theorem mapCol_append_singleton (g : Cell → Cell) (r : List Cell) (c : Cell) :
    mapCol g r.length (r ++ [c]) = r ++ [g c] := by
  induction r with
  | nil => rfl
  | cons a t ih => simp only [List.length_cons, List.cons_append, mapCol, List.append_eq, ih]

/-- Filtering for a row that does not occur yields nothing. -/
theorem filter_self_nil_of_not_mem {α : Type} [DecidableEq α] {r : α} {rows : List α}
    (h : r ∉ rows) : rows.filter (fun q => q = r) = [] := by
  induction rows with
  | nil => rfl
  | cons a t ih =>
    have ha : a ≠ r := by
      rintro rfl
      exact h (List.mem_cons_self ..)
    simp only [List.filter_cons, decide_eq_true_eq, if_neg ha]
    exact ih (fun hm => h (List.mem_cons_of_mem _ hm))

/-- In a duplicate-free list a member occurs exactly once. -/
theorem filter_self_len_one {α : Type} [DecidableEq α] {rows : List α} {r : α}
    (hnd : rows.Nodup) (hm : r ∈ rows) :
    (rows.filter (fun q => q = r)).length = 1 := by
  induction rows with
  | nil => exact absurd hm (List.not_mem_nil r)
  | cons a t ih =>
    rcases List.mem_cons.1 hm with rfl | hmt
    · have hnt : r ∉ t := (List.nodup_cons.1 hnd).1
      simp [List.filter_cons, filter_self_nil_of_not_mem hnt]
    · have ha : a ≠ r := by
        rintro rfl
        exact (List.nodup_cons.1 hnd).1 hmt
      simp only [List.filter_cons, decide_eq_true_eq, if_neg ha]
      exact ih (List.nodup_cons.1 hnd).2 hmt

/-- `countRow` distributes over table concatenation. -/
theorem countRow_append (x : StoredRow) (L1 L2 : Ledger) :
    countRow x (L1 ++ L2) = countRow x L1 + countRow x L2 := by
  unfold countRow
  rw [List.filter_append, List.length_append]

/-- `collectionFor` distributes over table concatenation. -/
theorem collectionFor_append (k : Str) (L1 L2 : Ledger) :
    collectionFor k (L1 ++ L2) = collectionFor k L1 ++ collectionFor k L2 := by
  unfold collectionFor
  rw [List.filter_append]

/-- Every row appended under key `k` belongs to the collection of `k`. -/
theorem collectionFor_mapped (k : Str) (rows : List (List Cell))
    (g : List Cell → List Cell) :
    collectionFor k (rows.map (fun r => StoredRow.mk k (g r)))
      = rows.map (fun r => StoredRow.mk k (g r)) := by
  unfold collectionFor
  refine List.filter_eq_self.mpr ?_
  intro x hx
  obtain ⟨r, _, rfl⟩ := List.mem_map.1 hx
  simp

/-- Counting one batch row among the rows appended for a batch reduces to
counting it in the batch. -/
theorem countRow_batch (k : Str) (c : Cell) (rows : List (List Cell)) (r : List Cell) :
    countRow (StoredRow.mk k (r ++ [c])) (rows.map (fun q => StoredRow.mk k (q ++ [c])))
      = (rows.filter (fun q => q = r)).length := by
  induction rows with
  | nil => rfl
  | cons a t ih =>
    simp only [List.map_cons, countRow, List.filter_cons, decide_eq_true_eq, List.filter_cons,
      StoredRow.mk.injEq, List.append_left_inj, true_and] at *
    by_cases har : a = r
    · rw [if_pos har, if_pos har, List.length_cons, List.length_cons, ih]
    · rw [if_neg har, if_neg har, ih]

/-- `Char.ofNat` of a lower-case-letter code keeps its code. -/
theorem toNat_charOfNat {n : Nat} (h1 : 97 ≤ n) (h2 : n ≤ 122) :
    (Char.ofNat n).toNat = n := by
  unfold Char.ofNat
  rw [dif_pos (Or.inl (by omega))]
  rfl

/-- Lower-casing never produces a newline from a non-newline. -/
theorem pyLowerChar_eq_nl {c : Char} (h : pyLowerChar c = '\n') : c = '\n' := by
  unfold pyLowerChar at h
  split at h
  case isTrue hc =>
    exfalso
    obtain ⟨h1, h2⟩ := hc
    have hA : (65 : Nat) ≤ c.toNat := h1
    have hZ : c.toNat ≤ (90 : Nat) := h2
    have hn := congrArg Char.toNat h
    rw [toNat_charOfNat (by omega) (by omega)] at hn
    rw [show ('\n'.toNat) = 10 from rfl] at hn
    omega
  case isFalse => exact h

/-- Stripping only removes characters. -/
theorem mem_pyStrip {a : Char} {s : Str} (h : a ∈ pyStrip s) : a ∈ s := by
  unfold pyStrip at h
  rw [List.mem_reverse] at h
  have h2 := (List.dropWhile_sublist (l := (s.dropWhile isPySpace).reverse) isPySpace).subset h
  rw [List.mem_reverse] at h2
  exact (List.dropWhile_sublist (l := s) isPySpace).subset h2

/-- The canonicalized label of a newline-free label is newline-free. -/
theorem no_nl_lowerStrip {l : Str} (h : '\n' ∉ l) :
    '\n' ∉ pyStrip (l.map pyLowerChar) := by
  intro hmem
  obtain ⟨c, hc, hcl⟩ := List.mem_map.1 (mem_pyStrip hmem)
  exact h (pyLowerChar_eq_nl hcl ▸ hc)

/-- Dropping up to a newline in a newline-free string drops everything. -/
theorem dropWhile_nl_nil {t : Str} (h : '\n' ∉ t) :
    t.dropWhile (fun d => d ≠ '\n') = [] := by
  induction t with
  | nil => rfl
  | cons a u ih =>
    have ha : a ≠ '\n' := fun hc => h (hc ▸ List.mem_cons_self ..)
    rw [List.dropWhile_cons, if_pos (decide_eq_true ha)]
    exact ih (fun hm => h (List.mem_cons_of_mem _ hm))

/-- The fuel argument of `subLitAux` is irrelevant above the string length. -/
theorem subLitAux_irrel (lit repl : Str) :
    ∀ (fuel fuel' : Nat) (s : Str), s.length ≤ fuel → s.length ≤ fuel' →
      subLitAux lit repl fuel s = subLitAux lit repl fuel' s := by
  intro fuel
  induction fuel with
  | zero =>
    intro fuel' s hle _
    have hs : s = [] := List.length_eq_zero.1 (Nat.le_zero.1 hle)
    subst hs
    cases fuel' <;> rfl
  | succ m ih =>
    intro fuel' s hle hle'
    cases s with
    | nil => cases fuel' <;> rfl
    | cons c rest =>
      cases fuel' with
      | zero => exact absurd hle' (by simp)
      | succ m' =>
        simp only [subLitAux]
        by_cases hcond : lit.isPrefixOf (c :: rest) = true ∧ lit ≠ []
        · rw [if_pos hcond, if_pos hcond]
          congr 1
          have hlit : 1 ≤ lit.length := List.length_pos.2 hcond.2
          have h3 : ((c :: rest).drop lit.length).length = (c :: rest).length - lit.length :=
            List.length_drop ..
          have h4 := (List.dropWhile_sublist (p := fun d => d ≠ '\n')
            (l := (c :: rest).drop lit.length)).length_le
          apply ih
          · simp only [List.length_cons] at h3 hle ⊢
            omega
          · simp only [List.length_cons] at h3 hle' ⊢
            omega
        · rw [if_neg hcond, if_neg hcond]
          congr 1
          apply ih
          · simp only [List.length_cons] at hle
            omega
          · simp only [List.length_cons] at hle'
            omega

/-- `subLitDotStar` on the empty string. -/
theorem subLit_nil (lit repl : Str) : subLitDotStar lit repl [] = [] := rfl

/-- `re.sub` copies a character at which the pattern does not match. -/
theorem subLit_cons_neg {lit : Str} (repl : Str) {c : Char} {u : Str}
    (h : ¬(lit.isPrefixOf (c :: u) = true ∧ lit ≠ [])) :
    subLitDotStar lit repl (c :: u) = c :: subLitDotStar lit repl u := by
  show subLitAux lit repl (u.length + 1) (c :: u) = _
  simp only [subLitAux]
  rw [if_neg h]
  rfl

/-- `re.sub` at a match: emit the replacement and continue after the matched
stretch (the literal plus everything up to the next newline). -/
theorem subLit_cons_pos {lit : Str} (repl : Str) {c : Char} {u : Str}
    (h1 : lit.isPrefixOf (c :: u) = true) (h2 : lit ≠ []) :
    subLitDotStar lit repl (c :: u)
      = repl ++ subLitDotStar lit repl
          (((c :: u).drop lit.length).dropWhile (fun d => d ≠ '\n')) := by
  show subLitAux lit repl (u.length + 1) (c :: u) = _
  simp only [subLitAux]
  rw [if_pos ⟨h1, h2⟩]
  congr 1
  apply subLitAux_irrel
  · have hlit : 1 ≤ lit.length := List.length_pos.2 h2
    have h3 : ((c :: u).drop lit.length).length = (c :: u).length - lit.length :=
      List.length_drop ..
    have h4 := (List.dropWhile_sublist (p := fun d => d ≠ '\n')
      (l := (c :: u).drop lit.length)).length_le
    simp only [List.length_cons] at h3 ⊢
    omega
  · exact Nat.le_refl _

/-- A pattern whose head letter never occurs in the string rewrites nothing. -/
theorem subLit_not_occur {h : Char} {lt : Str} (repl : Str) {s : Str}
    (hne : ∀ c ∈ s, c ≠ h) :
    subLitDotStar (h :: lt) repl s = s := by
  induction s with
  | nil => rfl
  | cons c rest ih =>
    rw [subLit_cons_neg repl ?neg]
    case neg =>
      rintro ⟨hp, -⟩
      obtain ⟨t, ht⟩ := List.isPrefixOf_iff_prefix.1 hp
      rw [List.cons_append] at ht
      injection ht with he _
      exact hne c (List.mem_cons_self ..) he.symm
    rw [ih (fun x hx => hne x (List.mem_cons_of_mem _ hx))]

/-- Characters before the first possible match are copied verbatim. -/
theorem subLit_copy_front {h : Char} {lt : Str} (repl : Str) {pre : Str}
    (hne : ∀ c ∈ pre, c ≠ h) (t : Str) :
    subLitDotStar (h :: lt) repl (pre ++ t)
      = pre ++ subLitDotStar (h :: lt) repl t := by
  induction pre with
  | nil => rfl
  | cons c pre' ih =>
    rw [List.cons_append, subLit_cons_neg repl ?neg]
    case neg =>
      rintro ⟨hp, -⟩
      obtain ⟨w, hw⟩ := List.isPrefixOf_iff_prefix.1 hp
      rw [List.cons_append] at hw
      injection hw with he _
      exact hne c (List.mem_cons_self ..) he.symm
    rw [ih (fun x hx => hne x (List.mem_cons_of_mem _ hx)), List.cons_append]

/-- A match at the head of a newline-free string swallows the whole string. -/
theorem subLit_match_head {h : Char} {lt : Str} (repl : Str) {t : Str}
    (hnl : '\n' ∉ t) :
    subLitDotStar (h :: lt) repl ((h :: lt) ++ t) = repl := by
  have hp : (h :: lt).isPrefixOf ((h :: lt) ++ t) = true :=
    List.isPrefixOf_iff_prefix.2 (List.prefix_append _ _)
  rw [List.cons_append] at hp ⊢
  rw [subLit_cons_pos repl hp (by simp)]
  have hd : (h :: (lt ++ t)).drop (h :: lt).length = t := by
    rw [← List.cons_append, List.drop_left]
  rw [hd, dropWhile_nl_nil hnl, subLit_nil, List.append_nil]

/-- `re.sub` of a newline-free pattern and replacement preserves
newline-freedom. -/
theorem subLit_no_nl {lit repl : Str} (hr : '\n' ∉ repl) :
    ∀ (n : Nat) (s : Str), s.length ≤ n → '\n' ∉ s →
      '\n' ∉ subLitDotStar lit repl s := by
  intro n
  induction n with
  | zero =>
    intro s hle hs
    have h0 : s = [] := List.length_eq_zero.1 (Nat.le_zero.1 hle)
    subst h0
    exact List.not_mem_nil _
  | succ m ih =>
    intro s hle hs
    cases s with
    | nil => exact List.not_mem_nil _
    | cons c rest =>
      by_cases hcond : lit.isPrefixOf (c :: rest) = true ∧ lit ≠ []
      · rw [subLit_cons_pos repl hcond.1 hcond.2]
        intro hmem
        rcases List.mem_append.1 hmem with hrep | hrec
        · exact hr hrep
        · have hsub : ∀ x ∈ ((c :: rest).drop lit.length).dropWhile (fun d => d ≠ '\n'),
              x ∈ c :: rest := fun x hx =>
            List.drop_subset _ _ ((List.dropWhile_sublist _).subset hx)
          have hlit : 1 ≤ lit.length := List.length_pos.2 hcond.2
          have h3 : ((c :: rest).drop lit.length).length = (c :: rest).length - lit.length :=
            List.length_drop ..
          have h4 := (List.dropWhile_sublist (p := fun d => d ≠ '\n')
            (l := (c :: rest).drop lit.length)).length_le
          refine ih _ ?_ (fun hm => hs (hsub _ hm)) hrec
          simp only [List.length_cons] at h3 hle ⊢
          omega
      · rw [subLit_cons_neg repl hcond]
        intro hmem
        rcases List.mem_cons.1 hmem with he | hrec
        · exact hs (he ▸ List.mem_cons_self ..)
        · exact ih rest (by simp only [List.length_cons] at hle; omega)
            (fun hm => hs (List.mem_cons_of_mem _ hm)) hrec

/-- A member's label position is inside the header list. -/
theorem idxOf_lt_length {name : Str} {hs : List Str} (h : name ∈ hs) :
    idxOf name hs < hs.length := by
  induction hs with
  | nil => exact absurd h (List.not_mem_nil name)
  | cons a t ih =>
    by_cases han : a = name
    · simp [idxOf, han]
    · rcases List.mem_cons.1 h with rfl | hmt
      · exact absurd rfl han
      · simp only [idxOf, if_neg han, List.length_cons]
        exact Nat.succ_lt_succ (ih hmt)

/-- Reading back the rewritten position of `mapCol`. -/
theorem getD_mapCol_self (g : Cell → Cell) (r : List Cell) {i : Nat}
    (h : i < r.length) (d : Cell) :
    (mapCol g i r).getD i d = g (r.getD i d) := by
  induction r generalizing i with
  | nil => exact absurd h (Nat.not_lt_zero i)
  | cons a t ih =>
    cases i with
    | zero => rfl
    | succ j =>
      simp only [mapCol, List.getD_cons_succ]
      exact ih (Nat.lt_of_succ_lt_succ h)

/-- Reading any other position of `mapCol`. -/
theorem getD_mapCol_ne (g : Cell → Cell) (r : List Cell) {i j : Nat}
    (h : j ≠ i) (d : Cell) :
    (mapCol g i r).getD j d = r.getD j d := by
  induction r generalizing i j with
  | nil => simp [mapCol]
  | cons a t ih =>
    cases i with
    | zero =>
      cases j with
      | zero => exact absurd rfl h
      | succ m => simp only [mapCol, List.getD_cons_succ]
    | succ n =>
      cases j with
      | zero => simp only [mapCol, List.getD_cons_zero]
      | succ m =>
        simp only [mapCol, List.getD_cons_succ]
        exact ih (fun hh => h (by rw [hh]))

/-- Re-setting the `key` column that a previous store call appended leaves
the DataFrame unchanged (it is overwritten with the same scalar). -/
theorem setColumn_overwrite_append {hs : List Str} {n : Str} (h : n ∉ hs)
    (rows : List (List Cell)) (hlen : ∀ r ∈ rows, r.length = hs.length) (c : Cell) :
    setColumn ⟨hs ++ [n], rows.map (fun r => r ++ [c])⟩ n c
      = ⟨hs ++ [n], rows.map (fun r => r ++ [c])⟩ := by
  have hmem : n ∈ hs ++ [n] := List.mem_append.2 (Or.inr (List.mem_singleton.2 rfl))
  unfold setColumn
  rw [if_pos hmem]
  congr 1
  rw [idxOf_append_self h, List.map_map]
  refine List.map_congr_left ?_
  intro r hr
  simp only [Function.comp_apply]
  rw [← hlen r hr, mapCol_append_singleton]

/-- Claim C1: two sequential successful `store_data_in_sqlite` calls with the
same key and the same batch leave the collection for that key holding exactly
two copies of every record of the batch (no deduplication across calls), and
the rows stored before the two calls are preserved untouched — the old table
is a prefix of the new one. -/
theorem c1_append_twice_two_copies (df : Frame) (k : Str) (L : Ledger)
    (hk : "key".data ∉ df.headers)
    (hlen : ∀ r ∈ df.rows, r.length = df.headers.length)
    (hnd : df.rows.Nodup)
    (hfresh : collectionFor k L = []) :
    (∀ r ∈ df.rows,
      countRow (StoredRow.mk k (r ++ [Cell.str k]))
        (collectionFor k
          (store_data_in_sqlite (store_data_in_sqlite df k L false).1 k
            (store_data_in_sqlite df k L false).2.1 false).2.1) = 2)
    ∧ L <+: (store_data_in_sqlite (store_data_in_sqlite df k L false).1 k
        (store_data_in_sqlite df k L false).2.1 false).2.1 := by
  have hL1 : (store_data_in_sqlite df k L false).2.1
      = L ++ df.rows.map (fun r => StoredRow.mk k (r ++ [Cell.str k])) := by
    show L ++ (setColumn df "key".data (Cell.str k)).rows.map (fun r => StoredRow.mk k r) = _
    rw [setColumn_fresh hk]
    show L ++ (df.rows.map fun r => r ++ [Cell.str k]).map (fun r => StoredRow.mk k r) = _
    rw [List.map_map]
    rfl
  have houter : (store_data_in_sqlite (store_data_in_sqlite df k L false).1 k
        (store_data_in_sqlite df k L false).2.1 false).2.1
      = (store_data_in_sqlite df k L false).2.1
        ++ (setColumn (store_data_in_sqlite df k L false).1 "key".data (Cell.str k)).rows.map
            (fun r => StoredRow.mk k r) := rfl
  have hL2 : (store_data_in_sqlite (store_data_in_sqlite df k L false).1 k
        (store_data_in_sqlite df k L false).2.1 false).2.1
      = L ++ (df.rows.map (fun r => StoredRow.mk k (r ++ [Cell.str k]))
          ++ df.rows.map (fun r => StoredRow.mk k (r ++ [Cell.str k]))) := by
    rw [houter, hL1, store_data_fst, setColumn_fresh hk,
      setColumn_overwrite_append hk df.rows hlen]
    show L ++ _ ++ (df.rows.map fun r => r ++ [Cell.str k]).map (fun r => StoredRow.mk k r) = _
    rw [List.map_map, List.append_assoc]
    rfl
  constructor
  · intro r hr
    rw [hL2, collectionFor_append, hfresh, List.nil_append, collectionFor_append,
      collectionFor_mapped, countRow_append, countRow_batch, filter_self_len_one hnd hr]
  · rw [hL2]
    exact List.prefix_append L _

/-- Claim C1 witness: a concrete one-row batch appended twice under a fresh
key yields exactly two copies and preserves the (empty) prior table. -/
theorem c1_append_twice_two_copies_witness :
    ("key".data ∉ (Frame.mk ["date".data] [[Cell.num 1]]).headers
      ∧ (∀ r ∈ (Frame.mk ["date".data] [[Cell.num 1]]).rows,
          r.length = (Frame.mk ["date".data] [[Cell.num 1]]).headers.length)
      ∧ (Frame.mk ["date".data] [[Cell.num 1]]).rows.Nodup
      ∧ collectionFor "GBP_INR_1W".data [] = [])
    ∧ ((∀ r ∈ (Frame.mk ["date".data] [[Cell.num 1]]).rows,
        countRow (StoredRow.mk "GBP_INR_1W".data (r ++ [Cell.str "GBP_INR_1W".data]))
          (collectionFor "GBP_INR_1W".data
            (store_data_in_sqlite
              (store_data_in_sqlite ⟨["date".data], [[Cell.num 1]]⟩ "GBP_INR_1W".data [] false).1
              "GBP_INR_1W".data
              (store_data_in_sqlite ⟨["date".data], [[Cell.num 1]]⟩ "GBP_INR_1W".data [] false).2.1
              false).2.1) = 2)
      ∧ [] <+: (store_data_in_sqlite
            (store_data_in_sqlite ⟨["date".data], [[Cell.num 1]]⟩ "GBP_INR_1W".data [] false).1
            "GBP_INR_1W".data
            (store_data_in_sqlite ⟨["date".data], [[Cell.num 1]]⟩ "GBP_INR_1W".data [] false).2.1
            false).2.1) :=
  ⟨⟨by decide, by decide, by decide, by decide⟩,
    c1_append_twice_two_copies ⟨["date".data], [[Cell.num 1]]⟩ "GBP_INR_1W".data []
      (by decide) (by decide) (by decide) (by decide)⟩

/-- Claim C10: `store_data_in_sqlite` mutates the caller's DataFrame before
storing — for a batch without a `key` column the call leaves the passed
DataFrame with a new `key` column equal to the storage key in every row, so
the input batch is not left unchanged. -/
theorem c10_append_mutates_batch (df : Frame) (k : Str) (L : Ledger) (b : Bool)
    (hk : "key".data ∉ df.headers) :
    (store_data_in_sqlite df k L b).1.headers = df.headers ++ ["key".data]
    ∧ (store_data_in_sqlite df k L b).1.rows
      = df.rows.map (fun r => r ++ [Cell.str k])
    ∧ (store_data_in_sqlite df k L b).1 ≠ df := by
  rw [store_data_fst, setColumn_fresh hk]
  refine ⟨rfl, rfl, ?_⟩
  intro he
  have hlen := congrArg (fun f => f.headers.length) he
  simp only [List.length_append, List.length_cons, List.length_nil] at hlen
  omega

/-- Claim C10 witness: a one-row batch with only a `date` column gains the
`key` column. -/
theorem c10_append_mutates_batch_witness :
    ("key".data ∉ (Frame.mk ["date".data] [[Cell.num 1]]).headers)
    ∧ ((store_data_in_sqlite ⟨["date".data], [[Cell.num 1]]⟩ "EUR_USD_1M".data [] false).1.headers
        = ["date".data] ++ ["key".data]
      ∧ (store_data_in_sqlite ⟨["date".data], [[Cell.num 1]]⟩ "EUR_USD_1M".data [] false).1.rows
        = [[Cell.num 1]].map (fun r => r ++ [Cell.str "EUR_USD_1M".data])
      ∧ (store_data_in_sqlite ⟨["date".data], [[Cell.num 1]]⟩ "EUR_USD_1M".data [] false).1
        ≠ ⟨["date".data], [[Cell.num 1]]⟩) :=
  ⟨by decide, c10_append_mutates_batch ⟨["date".data], [[Cell.num 1]]⟩ "EUR_USD_1M".data [] false
    (by decide)⟩

/-- Claim C4 counterexample: a network-level failure and a content-level
failure (no table in the page) return the very same value — the empty
DataFrame — so the caller cannot tell them apart, contrary to the claim that
they are two distinguishable error results. -/
theorem c4_counterexample :
    fetch_historical_exchange_data dateOkDigits dateValDigits floatParseDigits
        FetchOutcome.requestError
      = fetch_historical_exchange_data dateOkDigits dateValDigits floatParseDigits
        FetchOutcome.noTable := rfl

/-- Claim C4 (amended): a network-level failure and a content-level failure of
the fetch stage both yield the same empty DataFrame; they are distinguished
only in the log output, never in the value the Job receives. -/
theorem c4_failures_collapsed (dateOk : Str → Bool) (dateVal : Str → Nat)
    (fp : Str → Option Int) :
    fetch_historical_exchange_data dateOk dateVal fp FetchOutcome.requestError = emptyFrame
    ∧ fetch_historical_exchange_data dateOk dateVal fp FetchOutcome.noTable = emptyFrame :=
  ⟨rfl, rfl⟩

/-- Claim C5 counterexample: a failing `store_data_in_sqlite` call and a
succeeding one return the identical value (Python `None`), even though the
resulting stores differ — so the caller receives no Ack/StoreError
distinction, contrary to the claim. -/
theorem c5_counterexample :
    (store_data_in_sqlite ⟨["date".data], [[Cell.num 1]]⟩ "k".data [] true).2.2
      = (store_data_in_sqlite ⟨["date".data], [[Cell.num 1]]⟩ "k".data [] false).2.2
    ∧ (store_data_in_sqlite ⟨["date".data], [[Cell.num 1]]⟩ "k".data [] true).2.1
      ≠ (store_data_in_sqlite ⟨["date".data], [[Cell.num 1]]⟩ "k".data [] false).2.1 := by
  exact ⟨rfl, by decide⟩

/-- Claim C5 (amended): `store_data_in_sqlite` returns `None` whether the
append succeeded or failed (the exception is caught and only logged), so the
caller cannot distinguish the outcomes; a failing append is still
all-or-nothing — it leaves the stored collection exactly as it was before the
call. -/
theorem c5_append_silent_but_atomic (df : Frame) (k : Str) (L : Ledger) :
    (store_data_in_sqlite df k L true).2.1 = L
    ∧ (store_data_in_sqlite df k L true).2.2 = (store_data_in_sqlite df k L false).2.2 :=
  ⟨rfl, rfl⟩

/-- Claim C6 counterexample: the period string `"0M"` is made of digits
followed by `'M'`, so `parse_period_to_timestamps` accepts it without
raising, but the resolved range has `start = end`, violating `start < end`. -/
theorem c6_counterexample :
    parse_period_to_timestamps 1700000000 "0M".data = some (1700000000, 1700000000)
    ∧ ¬ ((1700000000 : Int) < 1700000000) := by decide

/-- Claim C6 (amended): for every accepted period string whose numeric count
is positive the resolved range satisfies `start < end` and `end` equals the
invocation instant exactly; the API additionally accepts counts `≤ 0` (for
example `"0M"`), for which `start < end` fails.  The scheduler's
`get_period_timestamps` accepts only the five positive literal periods, so
there `start < end` and `end = now` hold unconditionally. -/
theorem c6_period_resolution_positive :
    (∀ (now : Int) (p : Str) (n : Int), pyIntParse p.dropLast = some n → 0 < n →
      ∀ s e : Int, parse_period_to_timestamps now p = some (s, e) → s < e ∧ e = now)
    ∧ (∀ (now : Int) (p : Str) (s e : Int),
        get_period_timestamps now p = some (s, e) → s < e ∧ e = now) := by
  constructor
  · intro now p n hn hpos s e hp
    unfold parse_period_to_timestamps at hp
    split at hp
    · rw [hn] at hp
      simp only [Option.map_some', Option.some_inj, Prod.mk.injEq] at hp
      obtain ⟨hs, he⟩ := hp
      constructor <;> omega
    · rw [hn] at hp
      simp only [Option.map_some', Option.some_inj, Prod.mk.injEq] at hp
      obtain ⟨hs, he⟩ := hp
      constructor <;> omega
    · exact absurd hp (by simp)
  · intro now p s e hp
    unfold get_period_timestamps at hp
    split_ifs at hp <;> simp only [Option.some_inj, Prod.mk.injEq] at hp <;>
      obtain ⟨hs, he⟩ := hp <;> constructor <;> omega

/-- Claim C6 witness: the accepted period `"1M"` has count `1 > 0` and
resolves to a range with `start < end` and `end = now`. -/
theorem c6_witness :
    pyIntParse ("1M".data.dropLast) = some 1
    ∧ parse_period_to_timestamps 1700000000 "1M".data = some (1697408000, 1700000000)
    ∧ ((1697408000 : Int) < 1700000000 ∧ (1700000000 : Int) = 1700000000) :=
  ⟨by decide, by decide,
    c6_period_resolution_positive.1 1700000000 "1M".data 1 (by decide) (by decide)
      1697408000 1700000000 (by decide)⟩

/-- Claim C8 counterexample: at the moment `schedule_scraping` returns, no
submitted job is still pending — the `with ThreadPoolExecutor(...)` block
shuts the executor down with `wait=True`, so all ten jobs have already run to
completion, contrary to the claim that the dispatcher returns without waiting
for any job. -/
theorem c8_counterexample :
    schedule_scraping.pending = []
    ∧ schedule_scraping.completed = dispatchJobs
    ∧ dispatchJobs.length = 10 := by decide

/-- Claim C8 (amended): `schedule_scraping` constructs exactly one job per
element of the 2 x 5 cross-product of the fixed pair and period sets and
submits them to an executor of capacity 5, but it does not return until every
submitted job has completed: leaving the `with` block shuts the executor down
with `wait=True`, so the dispatch is not fire-and-forget. -/
theorem c8_dispatch_waits :
    dispatchJobs =
      [("GBPINR=X".data, "1W".data), ("GBPINR=X".data, "1M".data),
       ("GBPINR=X".data, "3M".data), ("GBPINR=X".data, "6M".data),
       ("GBPINR=X".data, "1Y".data), ("AEDINR=X".data, "1W".data),
       ("AEDINR=X".data, "1M".data), ("AEDINR=X".data, "3M".data),
       ("AEDINR=X".data, "6M".data), ("AEDINR=X".data, "1Y".data)]
    ∧ dispatchJobs.Nodup
    ∧ dispatchJobs.length = currency_pairs.length * periods.length
    ∧ MAX_WORKERS = 5
    ∧ schedule_scraping.pending = []
    ∧ schedule_scraping.completed = dispatchJobs := by decide

/-- Claim C9: the storage-key derivation of `scrape_and_store` is not
injective — the distinct instruments `"USDMXN=X"` and `"USDMN=X"` yield the
same table name for period `"1M"`, and appending a batch under either key
extends the same collection. -/
theorem c9_key_collision :
    scrapeTableName "USDMXN=X".data "1M".data = scrapeTableName "USDMN=X".data "1M".data
    ∧ "USDMXN=X".data ≠ "USDMN=X".data
    ∧ (store_data_in_memory_db ⟨["date".data], [[Cell.num 1]]⟩
          (scrapeTableName "USDMXN=X".data "1M".data) [] false).1
      = (store_data_in_memory_db ⟨["date".data], [[Cell.num 1]]⟩
          (scrapeTableName "USDMN=X".data "1M".data) [] false).1 := by decide

/-- Claim C3 counterexample: on a table with a parsable date column and a
volume column holding `"abc"` and `"-"`, the normalizer turns `"-"` into the
number `0` but leaves `"abc"` as the raw string `"abc"` — not as the missing
marker, contrary to the claim that every other non-numeric volume value
normalizes to missing. -/
theorem c3_counterexample :
    normalizeTable dateOkDigits dateValDigits floatParseDigits
        ["Date".data, "Volume".data]
        [["20240101".data, "abc".data], ["20240102".data, "-".data]]
      = some ⟨["date".data, "volume".data],
          [[Cell.date 20240101, Cell.str "abc".data],
           [Cell.date 20240102, Cell.num 0]]⟩
    ∧ Cell.str "abc".data ≠ Cell.nan
    ∧ Cell.str "abc".data ≠ Cell.num 0 := by decide

/-- Claim C3 (amended): in the volume stage a cell holding exactly `"-"`
always becomes the number `0`; but a volume cell holding any other string
that `float` rejects blocks the column conversion, so the whole column — that
cell included — keeps its raw post-replace contents: the unparsable value is
retained verbatim as a string, never turned into the missing marker and never
into `0`. -/
theorem c3_volume_dash_zero_raw_kept (fp : Str → Option Int) (f : Frame)
    (hlen : ∀ r ∈ f.rows, r.length = f.headers.length)
    (hv : "volume".data ∈ f.headers)
    (hblock : ∃ r ∈ f.rows,
      blocksConv fp (r.getD (idxOf "volume".data f.headers) Cell.nan) = true) :
    (volumeStep fp f).rows
      = f.rows.map (mapCol volumeReplace (idxOf "volume".data f.headers))
    ∧ (∀ r ∈ f.rows,
        r.getD (idxOf "volume".data f.headers) Cell.nan = Cell.str "-".data →
        (mapCol volumeReplace (idxOf "volume".data f.headers) r).getD
          (idxOf "volume".data f.headers) Cell.nan = Cell.num 0)
    ∧ (∀ r ∈ f.rows, ∀ s : Str,
        r.getD (idxOf "volume".data f.headers) Cell.nan = Cell.str s → s ≠ "-".data →
        (mapCol volumeReplace (idxOf "volume".data f.headers) r).getD
          (idxOf "volume".data f.headers) Cell.nan = Cell.str s) := by
  obtain ⟨r0, hr0, hb⟩ := hblock
  have hi : idxOf "volume".data f.headers < f.headers.length := idxOf_lt_length hv
  have hfail : (f.rows.map (mapCol volumeReplace (idxOf "volume".data f.headers))).all
      (fun r => cellFloatOk fp (r.getD (idxOf "volume".data f.headers) Cell.nan)) = false := by
    have hlt : idxOf "volume".data f.headers < r0.length := by
      rw [hlen r0 hr0]
      exact hi
    refine Bool.eq_false_iff.mpr ?_
    intro hall
    have hmem := List.all_eq_true.1 hall (mapCol volumeReplace (idxOf "volume".data f.headers) r0)
      (List.mem_map_of_mem _ hr0)
    rw [getD_mapCol_self _ _ hlt] at hmem
    revert hb hmem
    cases hcell : r0.getD (idxOf "volume".data f.headers) Cell.nan with
    | str s =>
      intro hb hmem
      simp only [blocksConv, decide_eq_true_eq] at hb
      obtain ⟨hdash, hnone⟩ := hb
      have : volumeReplace (Cell.str s) = Cell.str s := by
        unfold volumeReplace
        rw [if_neg (fun hcontra => hdash (Cell.str.inj hcontra))]
      rw [this] at hmem
      simp only [cellFloatOk] at hmem
      rw [Option.isNone_iff_eq_none.1 hnone] at hmem
      exact Bool.false_ne_true hmem
    | num v => intro hb _; exact Bool.false_ne_true hb
    | date d => intro hb _; exact Bool.false_ne_true hb
    | nan => intro hb _; exact Bool.false_ne_true hb
  refine ⟨?_, ?_, ?_⟩
  · unfold volumeStep
    rw [if_pos hv, if_neg (fun hcontra => Bool.false_ne_true (hfail ▸ hcontra))]
  · intro r hr hdash
    have hlt : idxOf "volume".data f.headers < r.length := by
      rw [hlen r hr]
      exact hi
    rw [getD_mapCol_self _ _ hlt, hdash]
    rfl
  · intro r hr s hcell hdash
    have hlt : idxOf "volume".data f.headers < r.length := by
      rw [hlen r hr]
      exact hi
    rw [getD_mapCol_self _ _ hlt, hcell]
    unfold volumeReplace
    rw [if_neg (fun hcontra => hdash (Cell.str.inj hcontra))]

/-- Selecting from a longer row keeps or drops the head cell with the head
mask bit. -/
theorem applyMask_cons (b : Bool) (m : List Bool) (c : Cell) (r : List Cell) :
    applyMask (b :: m) (c :: r) = (if b then [c] else []) ++ applyMask m r := by
  cases b <;> rfl

/-- A selected row keeps one cell per kept column. -/
theorem applyMask_keepMask_length {hs : List Str} {r : List Cell}
    (h : r.length = hs.length) :
    (applyMask (keepMask hs) r).length
      = (hs.filter (fun x => x ∈ required_columns)).length := by
  induction hs generalizing r with
  | nil =>
    have h0 : r = [] := List.length_eq_zero.1 h
    subst h0
    rfl
  | cons a t ih =>
    cases r with
    | nil => simp at h
    | cons c r' =>
      have h' : r'.length = t.length := Nat.succ_injective (by simpa using h)
      have e : keepMask (a :: t) = decide (a ∈ required_columns) :: keepMask t := rfl
      rw [e, applyMask_cons, List.filter_cons]
      by_cases ha : a ∈ required_columns
      · rw [if_pos (decide_eq_true ha), if_pos (decide_eq_true ha)]
        simp only [List.singleton_append, List.length_cons]
        exact congrArg Nat.succ (ih h')
      · rw [if_neg (fun hc => ha (of_decide_eq_true hc)),
          if_neg (fun hc => ha (of_decide_eq_true hc))]
        simp only [List.nil_append]
        exact ih h'

/-- A row of freshly extracted strings contains no NaN. -/
theorem rowHasNan_map_str (r : List Str) : rowHasNan (r.map Cell.str) = false := by
  induction r with
  | nil => rfl
  | cons a t ih =>
    simp only [List.map_cons, rowHasNan, List.any_cons] at ih ⊢
    simp [ih]

/-- Two rewrites of the same column fuse. -/
theorem mapCol_mapCol (g g' : Cell → Cell) (i : Nat) (r : List Cell) :
    mapCol g i (mapCol g' i r) = mapCol (fun c => g (g' c)) i r := by
  induction r generalizing i with
  | nil => simp [mapCol]
  | cons a t ih =>
    cases i with
    | zero => rfl
    | succ j =>
      simp only [mapCol]
      rw [ih]

/-- `mapCol` keeps the row length. -/
theorem length_mapCol (g : Cell → Cell) (i : Nat) (r : List Cell) :
    (mapCol g i r).length = r.length := by
  induction r generalizing i with
  | nil => simp [mapCol]
  | cons a t ih =>
    cases i with
    | zero => rfl
    | succ j =>
      simp only [mapCol, List.length_cons]
      rw [ih]

/-- Reading a cell of a freshly extracted row. -/
theorem getD_map_str {r : List Str} {k : Nat} (h : k < r.length) :
    (r.map Cell.str).getD k Cell.nan = Cell.str (r.getD k []) := by
  induction r generalizing k with
  | nil => exact absurd h (Nat.not_lt_zero k)
  | cons a t ih =>
    cases k with
    | zero => rfl
    | succ j =>
      simp only [List.map_cons, List.getD_cons_succ]
      exact ih (Nat.lt_of_succ_lt_succ h)

/-- An all-true mask keeps the whole row. -/
theorem applyMask_replicate_true : ∀ (n : Nat) (r : List Cell), r.length = n →
    applyMask (List.replicate n true) r = r := by
  intro n
  induction n with
  | zero =>
    intro r h
    have h0 : r = [] := List.length_eq_zero.1 h
    subst h0
    rfl
  | succ m ih =>
    intro r h
    cases r with
    | nil => simp at h
    | cons c r' =>
      rw [List.replicate_succ, applyMask_cons, if_pos rfl, ih r' (Nat.succ_injective h)]
      rfl

/-- Whether or not the volume column converts, the volume stage rewrites the
volume cells of every row in place and keeps everything else. -/
theorem volumeStep_rows_shape (fp : Str → Option Int) (f : Frame)
    (hv : "volume".data ∈ f.headers) :
    ∃ g : Cell → Cell,
      volumeStep fp f
        = ⟨f.headers, f.rows.map (mapCol g (idxOf "volume".data f.headers))⟩ := by
  unfold volumeStep
  rw [if_pos hv]
  by_cases hall : (f.rows.map (mapCol volumeReplace (idxOf "volume".data f.headers))).all
      (fun r => cellFloatOk fp (r.getD (idxOf "volume".data f.headers) Cell.nan)) = true
  · rw [if_pos hall]
    refine ⟨fun c => convertCell fp (volumeReplace c), ?_⟩
    congr 1
    rw [List.map_map]
    refine List.map_congr_left ?_
    intro r hr
    simp only [Function.comp_apply]
    exact mapCol_mapCol ..
  · rw [if_neg hall]
    exact ⟨volumeReplace, rfl⟩

/-- Normal form of the whole normalizer on a table whose headers canonicalize
exactly to the seven required columns and whose rows have seven cells: build,
no-op dropna, rename, no-op selection, then the date filter and the volume
rewrite. -/
theorem normalizeTable_canonical (dateOk : Str → Bool) (dateVal : Str → Nat)
    (fp : Str → Option Int) (headers : List Str) (rows : List (List Str))
    (hclean : headers.map clean_column_name = required_columns)
    (hlen7 : ∀ r ∈ rows, r.length = 7) :
    ∃ g : Cell → Cell,
      normalizeTable dateOk dateVal fp headers rows
        = some ⟨required_columns,
            (((rows.map (fun r => r.map Cell.str)).map
                (mapCol (coerceDateCell dateOk dateVal) 0)).filter
              (fun r => r.getD 0 Cell.nan ≠ Cell.nan)).map (mapCol g 6)⟩ := by
  have hhlen : headers.length = 7 := by
    have h1 := congrArg List.length hclean
    simpa using h1
  have hbuild : buildFrame headers rows
      = some ⟨headers, rows.map (fun r => r.map Cell.str)⟩ := by
    unfold buildFrame
    have hcond : rows.all (fun r => r.length ≤ headers.length) = true := by
      rw [List.all_eq_true]
      intro r hr
      have h2 : r.length = 7 := hlen7 r hr
      exact decide_eq_true (by omega)
    rw [if_pos hcond]
    congr 2
    refine List.map_congr_left ?_
    intro r hr
    rw [hlen7 r hr, hhlen]
    simp
  have hdrop : dropnaAll ⟨headers, rows.map (fun r => r.map Cell.str)⟩
      = ⟨headers, rows.map (fun r => r.map Cell.str)⟩ := by
    unfold dropnaAll
    congr 1
    refine List.filter_eq_self.2 ?_
    intro r hr
    obtain ⟨q, hq, rfl⟩ := List.mem_map.1 hr
    show (!rowHasNan (q.map Cell.str)) = true
    rw [rowHasNan_map_str]
    rfl
  have hrowsid : (rows.map (fun r => r.map Cell.str)).map
      (applyMask (keepMask required_columns)) = rows.map (fun r => r.map Cell.str) := by
    rw [show keepMask required_columns = List.replicate 7 true from by decide]
    refine Eq.trans (List.map_congr_left ?_) (List.map_id _)
    intro x hx
    obtain ⟨q, hq, rfl⟩ := List.mem_map.1 hx
    exact applyMask_replicate_true 7 (q.map Cell.str)
      (by rw [List.length_map, hlen7 q hq])
  have hsel : selectRequired (renameCols ⟨headers, rows.map (fun r => r.map Cell.str)⟩)
      = ⟨required_columns, rows.map (fun r => r.map Cell.str)⟩ := by
    unfold renameCols selectRequired
    show Frame.mk ((headers.map clean_column_name).filter (fun h => h ∈ required_columns))
      ((rows.map (fun r => r.map Cell.str)).map
        (applyMask (keepMask (headers.map clean_column_name)))) = _
    rw [hclean, hrowsid,
      show required_columns.filter (fun h => h ∈ required_columns) = required_columns from
        by decide]
  have hdmem : "date".data
      ∈ (Frame.mk required_columns (rows.map (fun r => r.map Cell.str))).headers := by
    show "date".data ∈ required_columns
    decide
  have hdate : dateStep dateOk dateVal ⟨required_columns, rows.map (fun r => r.map Cell.str)⟩
      = ⟨required_columns,
          ((rows.map (fun r => r.map Cell.str)).map
              (mapCol (coerceDateCell dateOk dateVal) 0)).filter
            (fun r => r.getD 0 Cell.nan ≠ Cell.nan)⟩ := by
    unfold dateStep
    rw [if_pos hdmem]
    rfl
  have hvmem : "volume".data
      ∈ (Frame.mk required_columns
          (((rows.map (fun r => r.map Cell.str)).map
              (mapCol (coerceDateCell dateOk dateVal) 0)).filter
            (fun r => r.getD 0 Cell.nan ≠ Cell.nan))).headers := by
    show "volume".data ∈ required_columns
    decide
  obtain ⟨g, hg⟩ := volumeStep_rows_shape fp
    ⟨required_columns,
      ((rows.map (fun r => r.map Cell.str)).map
          (mapCol (coerceDateCell dateOk dateVal) 0)).filter
        (fun r => r.getD 0 Cell.nan ≠ Cell.nan)⟩ hvmem
  refine ⟨g, ?_⟩
  unfold normalizeTable
  rw [hbuild, Option.map_some', hdrop, hsel, hdate, hg]
  rfl

/-- Claim C7 counterexample: the header label consisting of `close`, a
newline and `x` starts with `close`, but `clean_column_name` leaves it
unchanged — `.` in the `re.sub` patterns does not match a newline, so the
label does not collapse to `close` as the claim requires for every label. -/
theorem c7_counterexample :
    "close".data.isPrefixOf "close\nx".data = true
    ∧ "close".data.isPrefixOf (pyStrip ("close\nx".data.map pyLowerChar)) = true
    ∧ clean_column_name "close\nx".data = "close\nx".data
    ∧ clean_column_name "close\nx".data ≠ "close".data := by decide

/-- Claim C7 (amended): for every newline-free header label, canonicalization
lower-cases and trims it and collapses a result starting with `close` to
exactly `close`, one starting with `adj close` to exactly `adj_close`, and
one starting with `volume` to exactly `volume`; a column whose canonical name
is not one of the required seven is absent from the selected headers, and the
selected rows keep exactly one cell per surviving column (the dropped
column's cells are gone).  Labels containing a newline escape the collapse
because `.` does not match newlines. -/
theorem c7_header_canonicalization (l : Str) (hnl : '\n' ∉ l) :
    ("close".data.isPrefixOf (pyStrip (l.map pyLowerChar)) = true →
      clean_column_name l = "close".data)
    ∧ ("adj close".data.isPrefixOf (pyStrip (l.map pyLowerChar)) = true →
      clean_column_name l = "adj_close".data)
    ∧ ("volume".data.isPrefixOf (pyStrip (l.map pyLowerChar)) = true →
      clean_column_name l = "volume".data)
    ∧ (∀ f : Frame, clean_column_name l ∉ required_columns →
        clean_column_name l ∉ (selectRequired (renameCols f)).headers)
    ∧ (∀ f : Frame, (∀ r ∈ f.rows, r.length = f.headers.length) →
        ∀ r ∈ (selectRequired f).rows, r.length = (selectRequired f).headers.length) := by
  have hs' : '\n' ∉ pyStrip (l.map pyLowerChar) := no_nl_lowerStrip hnl
  refine ⟨?_, ?_, ?_, ?_, ?_⟩
  · intro hp
    obtain ⟨t, ht⟩ := List.isPrefixOf_iff_prefix.1 hp
    have hnt : '\n' ∉ t := fun hm => hs' (ht ▸ List.mem_append.2 (Or.inr hm))
    unfold clean_column_name
    rw [← ht]
    rw [show ("close".data : Str) = 'c' :: "lose".data from rfl]
    rw [@subLit_match_head 'c' "lose".data ('c' :: "lose".data) t hnt]
    rw [show ("adj close".data : Str) = 'a' :: "dj close".data from rfl]
    rw [@subLit_not_occur 'a' "dj close".data "adj_close".data
      ('c' :: "lose".data) (by decide)]
    rw [show ("volume".data : Str) = 'v' :: "olume".data from rfl]
    rw [@subLit_not_occur 'v' "olume".data ('v' :: "olume".data)
      ('c' :: "lose".data) (by decide)]
  · intro hp
    obtain ⟨t, ht⟩ := List.isPrefixOf_iff_prefix.1 hp
    have hnt : '\n' ∉ t := fun hm => hs' (ht ▸ List.mem_append.2 (Or.inr hm))
    unfold clean_column_name
    rw [← ht]
    rw [show ("adj close".data : Str) ++ t = "adj ".data ++ ("close".data ++ t) by
      rw [show ("adj close".data : Str) = "adj ".data ++ "close".data from rfl,
        List.append_assoc]]
    rw [show ("close".data : Str) = 'c' :: "lose".data from rfl]
    rw [@subLit_copy_front 'c' "lose".data ('c' :: "lose".data) "adj ".data
      (by decide) ('c' :: "lose".data ++ t)]
    rw [@subLit_match_head 'c' "lose".data ('c' :: "lose".data) t hnt]
    rw [show ("adj ".data : Str) ++ ('c' :: "lose".data)
        = ('a' :: "dj close".data) ++ ([] : Str) from rfl]
    rw [show ("adj close".data : Str) = 'a' :: "dj close".data from rfl]
    rw [@subLit_match_head 'a' "dj close".data "adj_close".data []
      (List.not_mem_nil '\n')]
    rw [show ("volume".data : Str) = 'v' :: "olume".data from rfl]
    rw [@subLit_not_occur 'v' "olume".data ('v' :: "olume".data)
      "adj_close".data (by decide)]
  · intro hp
    obtain ⟨t, ht⟩ := List.isPrefixOf_iff_prefix.1 hp
    have hnt : '\n' ∉ t := fun hm => hs' (ht ▸ List.mem_append.2 (Or.inr hm))
    unfold clean_column_name
    rw [← ht]
    rw [show ("close".data : Str) = 'c' :: "lose".data from rfl]
    rw [@subLit_copy_front 'c' "lose".data ('c' :: "lose".data) "volume".data
      (by decide) t]
    have hnt1 : '\n' ∉ subLitDotStar ('c' :: "lose".data) ('c' :: "lose".data) t :=
      subLit_no_nl (by decide) t.length t (Nat.le_refl _) hnt
    rw [show ("adj close".data : Str) = 'a' :: "dj close".data from rfl]
    rw [@subLit_copy_front 'a' "dj close".data "adj_close".data "volume".data
      (by decide) (subLitDotStar ('c' :: "lose".data) ('c' :: "lose".data) t)]
    have hnt2 : '\n' ∉ subLitDotStar ('a' :: "dj close".data) "adj_close".data
        (subLitDotStar ('c' :: "lose".data) ('c' :: "lose".data) t) :=
      subLit_no_nl (by decide) _ _ (Nat.le_refl _) hnt1
    rw [show ("volume".data : Str) = 'v' :: "olume".data from rfl]
    rw [@subLit_match_head 'v' "olume".data ('v' :: "olume".data)
      (subLitDotStar ('a' :: "dj close".data) "adj_close".data
        (subLitDotStar ('c' :: "lose".data) ('c' :: "lose".data) t)) hnt2]
  · intro f hnot hmem
    unfold selectRequired renameCols at hmem
    exact hnot (by simpa using (List.mem_filter.1 hmem).2)
  · intro f hlen r hr
    unfold selectRequired at hr ⊢
    obtain ⟨q, hq, rfl⟩ := List.mem_map.1 hr
    exact applyMask_keepMask_length (hlen q hq)

/-- Claim C7 witness: concrete Yahoo-style labels collapse to the canonical
names, and an unrecognized label's column is dropped. -/
theorem c7_header_canonicalization_witness :
    ('\n' ∉ "Close*".data)
    ∧ clean_column_name "Close*".data = "close".data
    ∧ clean_column_name "Adj Close**".data = "adj_close".data
    ∧ clean_column_name "Volume".data = "volume".data
    ∧ clean_column_name "Notes".data
        ∉ (selectRequired (renameCols ⟨["Notes".data], [[Cell.num 1]]⟩)).headers :=
  ⟨by decide,
   (c7_header_canonicalization "Close*".data (by decide)).1 (by decide),
   (c7_header_canonicalization "Adj Close**".data (by decide)).2.1 (by decide),
   (c7_header_canonicalization "Volume".data (by decide)).2.2.1 (by decide),
   (c7_header_canonicalization "Notes".data (by decide)).2.2.2.1
     ⟨["Notes".data], [[Cell.num 1]]⟩ (by decide)⟩

/-- Claim C2 counterexample: a row with a parsable date but an unparsable
`open` cell `"abc"` survives normalization with the raw string `"abc"` in
place — not with a missing marker, contrary to the claim that the failing
numeric field is marked missing. -/
theorem c2_counterexample :
    normalizeTable dateOkDigits dateValDigits floatParseDigits
        ["Date".data, "Open".data, "High".data, "Low".data, "Close".data,
         "Adj Close".data, "Volume".data]
        [["20240101".data, "abc".data, "2".data, "3".data, "4".data, "5".data, "6".data]]
      = some ⟨required_columns,
          [[Cell.date 20240101, Cell.str "abc".data, Cell.str "2".data, Cell.str "3".data,
            Cell.str "4".data, Cell.str "5".data, Cell.num 6]]⟩
    ∧ Cell.str "abc".data ≠ Cell.nan := by decide

/-- Claim C2 (amended): on a table whose headers canonicalize to the seven
required columns, every row whose date cell fails to parse is absent from the
normalizer output (every surviving row carries a parsed date, and the output
has exactly one row per parsable-date input row), and every row whose date
parses is present; its `open`, `high`, `low`, `close` and `adj_close` cells
are never parsed at all and are retained as their raw strings — an
unparsable numeric field therefore does not drop the row, but neither is it
marked missing. -/
theorem c2_unparsable_date_dropped (dateOk : Str → Bool) (dateVal : Str → Nat)
    (fp : Str → Option Int) (headers : List Str) (rows : List (List Str))
    (hclean : headers.map clean_column_name = required_columns)
    (hlen7 : ∀ r ∈ rows, r.length = 7) :
    ∃ fOut : Frame,
      normalizeTable dateOk dateVal fp headers rows = some fOut
      ∧ (∀ r' ∈ fOut.rows, ∃ d : Nat, r'.getD 0 Cell.nan = Cell.date d)
      ∧ fOut.rows.length = (rows.filter (fun r => dateOk (r.getD 0 []))).length
      ∧ (∀ r ∈ rows, dateOk (r.getD 0 []) = true →
          ∃ r' ∈ fOut.rows,
            r'.getD 0 Cell.nan = Cell.date (dateVal (r.getD 0 []))
            ∧ r'.getD 1 Cell.nan = Cell.str (r.getD 1 [])
            ∧ r'.getD 2 Cell.nan = Cell.str (r.getD 2 [])
            ∧ r'.getD 3 Cell.nan = Cell.str (r.getD 3 [])
            ∧ r'.getD 4 Cell.nan = Cell.str (r.getD 4 [])
            ∧ r'.getD 5 Cell.nan = Cell.str (r.getD 5 [])) := by
  obtain ⟨g, hn⟩ := normalizeTable_canonical dateOk dateVal fp headers rows hclean hlen7
  refine ⟨_, hn, ?_, ?_, ?_⟩
  · intro r' hr'
    obtain ⟨x, hx, rfl⟩ := List.mem_map.1 hr'
    have hpred := List.of_mem_filter hx
    have hxmem := List.mem_of_mem_filter hx
    obtain ⟨y, hy, rfl⟩ := List.mem_map.1 hxmem
    obtain ⟨z, hz, rfl⟩ := List.mem_map.1 hy
    have hzlen : z.length = 7 := hlen7 z hz
    have hlt0 : 0 < (z.map Cell.str).length := by
      rw [List.length_map, hzlen]
      omega
    rw [getD_mapCol_ne _ _ (by omega), getD_mapCol_self _ _ hlt0, getD_map_str (by omega)]
    by_cases hok : dateOk (z.getD 0 []) = true
    · exact ⟨dateVal (z.getD 0 []), by simp only [coerceDateCell]; rw [if_pos hok]⟩
    · exfalso
      have hpred' : (mapCol (coerceDateCell dateOk dateVal) 0 (z.map Cell.str)).getD 0 Cell.nan
          ≠ Cell.nan := of_decide_eq_true hpred
      rw [getD_mapCol_self _ _ hlt0, getD_map_str (by omega)] at hpred'
      simp only [coerceDateCell] at hpred'
      rw [if_neg hok] at hpred'
      exact hpred' rfl
  · show (((((rows.map (fun r => r.map Cell.str)).map
        (mapCol (coerceDateCell dateOk dateVal) 0)).filter
          (fun r => r.getD 0 Cell.nan ≠ Cell.nan)).map (mapCol g 6)).length)
      = (rows.filter (fun r => dateOk (r.getD 0 []))).length
    rw [List.length_map, List.map_map, List.filter_map, List.length_map]
    refine congrArg List.length (List.filter_congr ?_)
    intro r hr
    have hzlen : r.length = 7 := hlen7 r hr
    have hlt0 : 0 < (r.map Cell.str).length := by
      rw [List.length_map, hzlen]
      omega
    simp only [Function.comp_apply, getD_mapCol_self _ _ hlt0,
      getD_map_str (show 0 < r.length by omega), coerceDateCell]
    by_cases hok : dateOk (r.getD 0 []) = true
    · simp [hok]
    · rw [Bool.not_eq_true] at hok
      simp [hok]
  · intro r hr hok
    have hzlen : r.length = 7 := hlen7 r hr
    have hlt0 : 0 < (r.map Cell.str).length := by
      rw [List.length_map, hzlen]
      omega
    have hptrue : (fun q => decide (q.getD 0 Cell.nan ≠ Cell.nan))
        (mapCol (coerceDateCell dateOk dateVal) 0 (r.map Cell.str)) = true := by
      refine decide_eq_true ?_
      rw [getD_mapCol_self _ _ hlt0, getD_map_str (by omega)]
      simp only [coerceDateCell]
      rw [if_pos hok]
      exact fun hc => Cell.noConfusion hc
    refine ⟨mapCol g 6 (mapCol (coerceDateCell dateOk dateVal) 0 (r.map Cell.str)),
      List.mem_map_of_mem _ (List.mem_filter_of_mem
        (List.mem_map_of_mem _ (List.mem_map_of_mem _ hr)) hptrue),
      ?_, ?_, ?_, ?_, ?_, ?_⟩
    · rw [getD_mapCol_ne _ _ (by omega), getD_mapCol_self _ _ hlt0, getD_map_str (by omega)]
      simp only [coerceDateCell]
      rw [if_pos hok]
    · rw [getD_mapCol_ne _ _ (by omega), getD_mapCol_ne _ _ (by omega),
        getD_map_str (by omega)]
    · rw [getD_mapCol_ne _ _ (by omega), getD_mapCol_ne _ _ (by omega),
        getD_map_str (by omega)]
    · rw [getD_mapCol_ne _ _ (by omega), getD_mapCol_ne _ _ (by omega),
        getD_map_str (by omega)]
    · rw [getD_mapCol_ne _ _ (by omega), getD_mapCol_ne _ _ (by omega),
        getD_map_str (by omega)]
    · rw [getD_mapCol_ne _ _ (by omega), getD_mapCol_ne _ _ (by omega),
        getD_map_str (by omega)]

/-- Claim C2 witness: a two-row Yahoo-style table where one date parses and
one does not — the bad-date row is dropped, the good row survives with its
numeric cells kept as raw strings. -/
theorem c2_unparsable_date_dropped_witness :
    ((["Date".data, "Open".data, "High".data, "Low".data, "Close".data,
        "Adj Close".data, "Volume".data].map clean_column_name = required_columns)
      ∧ (∀ r ∈ [["20240101".data, "1".data, "2".data, "3".data, "4".data,
              "5".data, "6".data],
            ["x".data, "9".data, "9".data, "9".data, "9".data, "9".data, "9".data]],
          r.length = 7))
    ∧ (∃ fOut : Frame,
        normalizeTable dateOkDigits dateValDigits floatParseDigits
            ["Date".data, "Open".data, "High".data, "Low".data, "Close".data,
             "Adj Close".data, "Volume".data]
            [["20240101".data, "1".data, "2".data, "3".data, "4".data,
              "5".data, "6".data],
             ["x".data, "9".data, "9".data, "9".data, "9".data, "9".data, "9".data]]
          = some fOut
        ∧ (∀ r' ∈ fOut.rows, ∃ d : Nat, r'.getD 0 Cell.nan = Cell.date d)
        ∧ fOut.rows.length
          = ([["20240101".data, "1".data, "2".data, "3".data, "4".data,
               "5".data, "6".data],
              ["x".data, "9".data, "9".data, "9".data, "9".data, "9".data,
               "9".data]].filter (fun r => dateOkDigits (r.getD 0 []))).length
        ∧ (∀ r ∈ [["20240101".data, "1".data, "2".data, "3".data, "4".data,
               "5".data, "6".data],
              ["x".data, "9".data, "9".data, "9".data, "9".data, "9".data, "9".data]],
            dateOkDigits (r.getD 0 []) = true →
            ∃ r' ∈ fOut.rows,
              r'.getD 0 Cell.nan = Cell.date (dateValDigits (r.getD 0 []))
              ∧ r'.getD 1 Cell.nan = Cell.str (r.getD 1 [])
              ∧ r'.getD 2 Cell.nan = Cell.str (r.getD 2 [])
              ∧ r'.getD 3 Cell.nan = Cell.str (r.getD 3 [])
              ∧ r'.getD 4 Cell.nan = Cell.str (r.getD 4 [])
              ∧ r'.getD 5 Cell.nan = Cell.str (r.getD 5 []))) :=
  ⟨⟨by decide, by decide⟩,
    c2_unparsable_date_dropped dateOkDigits dateValDigits floatParseDigits
      ["Date".data, "Open".data, "High".data, "Low".data, "Close".data,
       "Adj Close".data, "Volume".data]
      [["20240101".data, "1".data, "2".data, "3".data, "4".data, "5".data, "6".data],
       ["x".data, "9".data, "9".data, "9".data, "9".data, "9".data, "9".data]]
      (by decide) (by decide)⟩

/-- Claim C3 witness: a concrete volume column holding `"abc"` and `"-"`
keeps `"abc"` verbatim and turns `"-"` into `0`. -/
theorem c3_volume_dash_zero_raw_kept_witness :
    ((∀ r ∈ (Frame.mk ["volume".data] [[Cell.str "abc".data], [Cell.str "-".data]]).rows,
        r.length = (Frame.mk ["volume".data] [[Cell.str "abc".data], [Cell.str "-".data]]).headers.length)
      ∧ "volume".data ∈ (Frame.mk ["volume".data] [[Cell.str "abc".data], [Cell.str "-".data]]).headers
      ∧ (∃ r ∈ (Frame.mk ["volume".data] [[Cell.str "abc".data], [Cell.str "-".data]]).rows,
          blocksConv floatParseDigits
            (r.getD (idxOf "volume".data
              (Frame.mk ["volume".data] [[Cell.str "abc".data], [Cell.str "-".data]]).headers)
              Cell.nan) = true))
    ∧ ((volumeStep floatParseDigits
          ⟨["volume".data], [[Cell.str "abc".data], [Cell.str "-".data]]⟩).rows
        = (Frame.mk ["volume".data] [[Cell.str "abc".data], [Cell.str "-".data]]).rows.map
            (mapCol volumeReplace (idxOf "volume".data
              (Frame.mk ["volume".data] [[Cell.str "abc".data], [Cell.str "-".data]]).headers))
      ∧ (∀ r ∈ (Frame.mk ["volume".data] [[Cell.str "abc".data], [Cell.str "-".data]]).rows,
          r.getD (idxOf "volume".data
            (Frame.mk ["volume".data] [[Cell.str "abc".data], [Cell.str "-".data]]).headers)
            Cell.nan = Cell.str "-".data →
          (mapCol volumeReplace (idxOf "volume".data
            (Frame.mk ["volume".data] [[Cell.str "abc".data], [Cell.str "-".data]]).headers) r).getD
            (idxOf "volume".data
              (Frame.mk ["volume".data] [[Cell.str "abc".data], [Cell.str "-".data]]).headers)
            Cell.nan = Cell.num 0)
      ∧ (∀ r ∈ (Frame.mk ["volume".data] [[Cell.str "abc".data], [Cell.str "-".data]]).rows,
          ∀ s : Str,
          r.getD (idxOf "volume".data
            (Frame.mk ["volume".data] [[Cell.str "abc".data], [Cell.str "-".data]]).headers)
            Cell.nan = Cell.str s → s ≠ "-".data →
          (mapCol volumeReplace (idxOf "volume".data
            (Frame.mk ["volume".data] [[Cell.str "abc".data], [Cell.str "-".data]]).headers) r).getD
            (idxOf "volume".data
              (Frame.mk ["volume".data] [[Cell.str "abc".data], [Cell.str "-".data]]).headers)
            Cell.nan = Cell.str s)) :=
  ⟨⟨by decide, by decide, by decide⟩,
    c3_volume_dash_zero_raw_kept floatParseDigits
      ⟨["volume".data], [[Cell.str "abc".data], [Cell.str "-".data]]⟩
      (by decide) (by decide) (by decide)⟩

end Forex
